import Mathlib

/-
Verification of the filefinder core (src/filefinder/_filefinder.py) against its
natural-language specification.  The module is embedded shallowly:

* a path/file template is a list of segments (literal text or a named
  placeholder), so that str.format over a fully assigned condition dict is
  plain concatenation;
* the filesystem glob primitive and the template-engine parse primitive are
  external collaborators in the source (glob.glob and parse.compile) and are
  embedded as function parameters;
* a pandas DataFrame is embedded as a column-name list plus a list of rows,
  each row a list of string cells; boolean-mask filtering is embedded
  pointwise per row;
* the helper module filefinder/utils.py (with find-keys, natural-keys,
  product-dict and update-keys-dict-with-kwargs) is not part of the sources;
  those four helpers are modelled from the spec, as marked in their doc
  comments.
-/

namespace Filefinder

/-- One segment of a template: literal text, or a named placeholder (written
in braces in the concrete syntax). -/
inductive Segment where
  | lit (s : String)
  | key (name : String)
deriving DecidableEq

/-- A template is a sequence of segments. -/
abbrev Pattern := List Segment

/-- Modelled from the spec: find-keys from the missing utils module
(KeyExtractor) returns the placeholder names occurring in a template.  On the
segment representation these are the names of the key segments; the spec
makes duplicate names undefined behaviour, so we keep them in order. -/
def Pattern.keys (p : Pattern) : List String :=
  p.filterMap (fun s => match s with | .key k => some k | .lit _ => none)

/-- str.format of the template under a total assignment of strings to
placeholder names (the assignment used in Finder.find always covers every
key, because the condition dict defaults every key to the wildcard). -/
def Pattern.format (p : Pattern) (assign : String → String) : String :=
  String.join (p.map (fun s => match s with | .lit t => t | .key k => assign k))

/-- Finder._create_condition_dict, as a lookup: every key of the template
defaults to the glob wildcard, and keys present in the one-search dict
override that default. -/
def condValue (combo : List (String × String)) (k : String) : String :=
  (combo.lookup k).getD "*"

/-- One chunk of the natural-sort key of a string: a run of non-digits,
ordered lexically as its sequence of code points (exactly how Python orders
strings), or a run of digits, ordered by numeric value.  The lexicographic
sum order is only ever used on keys whose chunks alternate starting with a
(possibly empty) text chunk, so chunks of distinct kinds are never compared
at the same position. -/
abbrev NatChunk := Lex (List Char ⊕ Nat)

/-- Wraps a non-digit run. -/
def natStr (s : List Char) : NatChunk := toLex (Sum.inl s)

/-- Wraps a digit run, by numeric value. -/
def natNum (n : Nat) : NatChunk := toLex (Sum.inr n)

/-- Numeric value of a run of decimal digits. -/
def digitsToNat (cs : List Char) : Nat :=
  cs.foldl (fun n c => 10 * n + (c.toNat - 48)) 0

/-- Maximal runs of consecutive characters that agree on being a digit,
in order.  Adjacent runs always disagree on digit-ness. -/
def charRuns (cs : List Char) : List (List Char) :=
  cs.foldr
    (fun c acc =>
      match acc with
      | [] => [[c]]
      | run :: rest =>
        match run with
        | [] => [c] :: rest
        | d :: _ => if c.isDigit == d.isDigit then (c :: run) :: rest else [c] :: run :: rest)
    []

/-- Does the run consist of digits?  Runs are never empty, so the head
decides. -/
def isDigitRun (run : List Char) : Bool :=
  match run with
  | [] => false
  | c :: _ => c.isDigit

/-- Interleaves the runs into the shape produced by splitting on digit runs
with a capturing group: a (possibly empty) text chunk, then alternating
numeric and (possibly empty) text chunks, beginning and ending with text. -/
def fillChunks : List (List Char) → List NatChunk
  | [] => [natStr []]
  | r :: rest =>
    if isDigitRun r then
      natStr [] :: natNum (digitsToNat r) :: fillChunks rest
    else
      match rest with
      | [] => [natStr r]
      | d :: rest2 => natStr r :: natNum (digitsToNat d) :: fillChunks rest2

/-- Modelled from the spec: natural-keys from the missing utils module.
Splits a string into runs of digits and non-digits; digit runs compare
numerically and non-digit runs compare lexically. -/
def naturalKey (s : String) : List NatChunk :=
  fillChunks (charRuns s.data)

/-- Comparison of two strings by their natural-sort keys, compared
lexicographically chunk by chunk. -/
def natLe (a b : String) : Prop :=
  naturalKey a ≤ naturalKey b

instance natLe.decidableRel : DecidableRel natLe :=
  fun a b => inferInstanceAs (Decidable (naturalKey a ≤ naturalKey b))

/-- sorted(paths, key=natural_keys): a stable sort of the paths by their
natural-sort keys.  The source delegates to the Python builtin sorted, a
stable comparison sort; insertion sort is a stable comparison sort with the
same extensional behaviour. -/
def sortNatural (paths : List String) : List String :=
  paths.insertionSort natLe

/-- A pandas DataFrame, embedded as its column names plus its rows; every
cell is the string the template engine extracted (or the stored filename). -/
structure DataFrame where
  columns : List String
  rows : List (List String)
deriving DecidableEq

/-- FileContainer wraps the assembled DataFrame. -/
structure FileContainer where
  df : DataFrame
deriving DecidableEq

/-- Reads the cell of a row under a column name; column positions come from
the schema.  The source would raise a KeyError for an unknown column, which
no reachable call does; the embedding returns the empty string there. -/
def DataFrame.cell (df : DataFrame) (row : List String) (k : String) : String :=
  match df.columns.indexOf? k with
  | some i => row.getD i ""
  | none => ""

/-- FileContainer.combine_by_key: join the string forms of the named columns
of every row with the separator; the default column set is every column
except the filename. -/
def FileContainer.combineByKey (fc : FileContainer) (keys : Option (List String))
    (sep : String) : List String :=
  let ks := keys.getD (fc.df.columns.filter (fun c => c != "filename"))
  fc.df.rows.map (fun row => String.intercalate sep (ks.map (fun k => fc.df.cell row k)))

/-- A value of one keyword constraint of FileContainer.search: a list of
candidates, None, or a bare scalar. -/
inductive SearchVal where
  | scalar (s : String)
  | list (vs : List String)
  | null
deriving DecidableEq

/-- The boolean-mask computation of FileContainer._get_subset, evaluated at
one row: the mask starts all-true; a list-valued constraint contributes the
OR of the equality masks of its elements; a non-None scalar contributes its
equality mask; None leaves the mask unchanged. -/
def rowPass (df : DataFrame) (query : List (String × SearchVal)) (row : List String) : Bool :=
  query.foldl
    (fun cond kv =>
      match kv.2 with
      | .list vs => cond && vs.foldl (fun c v => c || (df.cell row kv.1 == v)) false
      | .scalar s => cond && (df.cell row kv.1 == s)
      | .null => cond)
    true

/-- FileContainer._get_subset: with no constraints, an empty frame over the
same columns; otherwise the rows surviving the boolean mask. -/
def FileContainer.getSubset (fc : FileContainer) (query : List (String × SearchVal)) :
    DataFrame :=
  if query.isEmpty then ⟨fc.df.columns, []⟩
  else ⟨fc.df.columns, fc.df.rows.filter (rowPass fc.df query)⟩

/-- FileContainer.search: a copy of the container whose frame is the subset. -/
def FileContainer.search (fc : FileContainer) (query : List (String × SearchVal)) :
    FileContainer :=
  ⟨fc.getSubset query⟩

/-- FileContainer.__getitem__ with a slice: a copy of the container holding
the selected row range (iloc start:stop). -/
def FileContainer.getItemSlice (fc : FileContainer) (start stop : Nat) : FileContainer :=
  ⟨⟨fc.df.columns, (fc.df.rows.drop start).take (stop - start)⟩⟩

/-- The Python object heap restricted to FileContainer values: object
identities are indices into the allocation list. -/
abbrev Heap := List FileContainer

/-- Dereferences an object identity. -/
def heapGet (h : Heap) (i : Nat) : FileContainer :=
  h[i]?.getD ⟨⟨[], []⟩⟩

/-- FileContainer.search as executed on the object heap: copy.copy(self)
allocates a fresh container, whose df field is then replaced by the subset;
the result is the new object identity. -/
def searchOnHeap (h : Heap) (i : Nat) (query : List (String × SearchVal)) : Heap × Nat :=
  (h ++ [(heapGet h i).search query], h.length)

/-- FileContainer.__getitem__ with a slice as executed on the object heap:
copy.copy(self) allocates a fresh container whose df field is then replaced
by the selected rows. -/
def sliceOnHeap (h : Heap) (i : Nat) (start stop : Nat) : Heap × Nat :=
  (h ++ [(heapGet h i).getItemSlice start stop], h.length)

/-- A value of one keyword field argument of Finder.find: a bare string or a
list of candidate strings. -/
inductive QueryValue where
  | str (s : String)
  | list (vs : List String)
deriving DecidableEq

/-- The normalization at the top of Finder.find wraps bare strings in a
one-element list and keeps lists. -/
def QueryValue.toList : QueryValue → List String
  | .str s => [s]
  | .list vs => vs

/-- Rewrites a one-element list value into the bare scalar; other values are
kept. -/
def QueryValue.scalarize : QueryValue → QueryValue
  | .list [s] => .str s
  | v => v

/-- Modelled from the spec: update-keys-dict-with-kwargs from the missing
utils module merges the optional keys dict with the keyword arguments, the
keyword arguments winning.  Finder.find always passes keys=None, for which
the merge is exactly the keyword arguments. -/
def updateKeysDictWithKwargs (keys : Option (List (String × QueryValue)))
    (kwargs : List (String × QueryValue)) : List (String × QueryValue) :=
  (keys.getD []).filter (fun kv => (kwargs.lookup kv.1).isNone) ++ kwargs

/-- The keys dict after the string-wrapping loop of Finder.find. -/
def normalizeQuery (kw : List (String × QueryValue)) : List (String × List String) :=
  kw.map (fun kv => (kv.1, kv.2.toList))

/-- Modelled from the spec: product-dict from the missing utils module
enumerates the cartesian product of the list-valued fields, each combination
being one concrete field assignment; an empty dict yields the single empty
combination. -/
def productDict : List (String × List String) → List (List (String × String))
  | [] => [[]]
  | kv :: rest => kv.2.flatMap (fun v => (productDict rest).map (fun combo => (kv.1, v) :: combo))

/-- A Finder: a compiled template, the external template-engine parse
capability for that template (parse.compile(pattern).parse, restricted to
the named fields of a hit, in template order), and the suffix appended to
every stored filename. -/
structure Finder where
  pattern : Pattern
  parseFn : String → List (String × String)
  suffix : String

/-- create_name applied to the condition dict of one concrete search: every
unresolved key becomes the wildcard. -/
def Finder.fullPattern (f : Finder) (combo : List (String × String)) : String :=
  f.pattern.format (condValue combo)

/-- Finder._parse_paths: None when no paths matched; otherwise one row per
path, holding the path plus the suffix followed by the parsed field values,
under a column header built from the field names of the last parsed path. -/
def Finder.parsePaths (f : Finder) : List String → Option DataFrame
  | [] => none
  | p :: ps =>
    some ⟨"filename" :: ((f.parseFn ((p :: ps).getLast (List.cons_ne_nil p ps))).map Prod.fst),
      (p :: ps).map (fun q => (q ++ f.suffix) :: ((f.parseFn q).map Prod.snd))⟩

/-- The body of one iteration of the search loop of Finder.find: the concrete
search pattern of the combination, and the parsed frame of its naturally
sorted glob matches. -/
def Finder.searchOne (f : Finder) (glob : String → List String)
    (combo : List (String × String)) : String × Option DataFrame :=
  (f.fullPattern combo, f.parsePaths (sortNatural (glob (f.fullPattern combo))))

/-- All iterations of the search loop of Finder.find, one per combination of
the cartesian product. -/
def Finder.attempts (f : Finder) (glob : String → List String)
    (normalized : List (String × List String)) : List (String × Option DataFrame) :=
  (productDict normalized).map (fun combo => f.searchOne glob combo)

/-- Every concrete search pattern Finder.find attempts for the given keyword
arguments. -/
def Finder.attemptedPatterns (f : Finder) (kw : List (String × QueryValue)) : List String :=
  (productDict (normalizeQuery kw)).map (fun combo => f.fullPattern combo)

/-- pd.concat of the per-combination frames followed by reset_index, for the
schema-compatible frames the loop produces; None when no frame was
collected. -/
def concatDfs : List DataFrame → Option DataFrame
  | [] => none
  | d :: ds => some ⟨d.columns, ((d :: ds).map DataFrame.rows).flatten⟩

/-- One diagnostic line per attempted pattern, as concatenated into the
no-match message. -/
def patternLines : List String → String
  | [] => ""
  | p :: ps => "\n- \x27" ++ p ++ "\x27" ++ patternLines ps

/-- The message of the error raised when no pattern matched any file. -/
def noMatchMsg (patterns : List String) : String :=
  "Found no files matching criteria. Tried the following pattern(s):" ++ patternLines patterns

/-- The message of the error raised when the joined key columns are not
unique. -/
def ambiguousMsg : String :=
  "This query leads to non-unique metadata. Please adjust your query."

/-- The two failures Finder.find can raise: NoMatchError and
AmbiguousResultError, each with its message. -/
inductive FindError where
  | noMatch (msg : String)
  | ambiguous (msg : String)
deriving DecidableEq

/-- A successful return of Finder.find: the literal empty Python list, or a
FileContainer. -/
inductive FindResult where
  | emptyList
  | table (fc : FileContainer)
deriving DecidableEq

/-- Is the returned value a result table? -/
def FindResult.isTable : FindResult → Bool
  | .table _ => true
  | .emptyList => false

/-- The search loop and the two validation steps of Finder.find, after query
normalization. -/
def Finder.findNorm (f : Finder) (glob : String → List String) (allowEmpty : Bool)
    (normalized : List (String × List String)) : Except FindError FindResult :=
  let atts := f.attempts glob normalized
  let allPatterns := atts.map Prod.fst
  match concatDfs (atts.filterMap Prod.snd) with
  | none =>
    if allowEmpty then .ok .emptyList
    else .error (.noMatch (noMatchMsg allPatterns))
  | some df =>
    let fc : FileContainer := ⟨df⟩
    let joined := fc.combineByKey none "."
    if joined.length ≠ joined.dedup.length then .error (.ambiguous ambiguousMsg)
    else .ok (.table fc)

/-- Finder.find.  The positional keys dict is not forwarded: the source
rebuilds the keys dict from keys=None and the keyword arguments alone. -/
def Finder.find (f : Finder) (glob : String → List String)
    (keysPos : Option (List (String × QueryValue))) (allowEmpty : Bool)
    (kwargs : List (String × QueryValue)) : Except FindError FindResult :=
  let _ := keysPos
  f.findNorm glob allowEmpty (normalizeQuery (updateKeysDictWithKwargs none kwargs))

/-- Does the string end with the path separator? -/
def strEndsWithSep (s : String) : Bool :=
  s.data.getLast? == some '/'

/-- Does the rendered template string end with the path separator?  On the
segment representation: the last segment is a literal ending with the
separator (a template ending with a placeholder renders a closing brace
last). -/
def patternEndsWithSep (p : Pattern) : Bool :=
  match p.getLast? with
  | some (.lit s) => strEndsWithSep s
  | _ => false

/-- os.path.join(path_pattern, "") as used by FileFinder.__init__: the empty
template stays empty, a template already ending with the separator is kept,
and otherwise the separator is appended. -/
def osJoinTrailing (p : Pattern) : Pattern :=
  if p.isEmpty then p
  else if patternEndsWithSep p then p else p ++ [Segment.lit "/"]

namespace FileFinder

/-- The directory finder built by FileFinder.__init__: the directory template
forced to end with the separator, with the wildcard filename suffix. -/
def pathFinder (pathPattern : Pattern) (parseFn : String → List (String × String)) : Finder :=
  ⟨osJoinTrailing pathPattern, parseFn, "*"⟩

/-- FileFinder.find_paths delegates to the directory finder. -/
def findPaths (pathPattern : Pattern) (parseFn : String → List (String × String))
    (glob : String → List String) (keysPos : Option (List (String × QueryValue)))
    (allowEmpty : Bool) (kwargs : List (String × QueryValue)) : Except FindError FindResult :=
  (pathFinder pathPattern parseFn).find glob keysPos allowEmpty kwargs

end FileFinder

/-- The row predicate as the spec words it: a row matches when every supplied
constraint is satisfied, where a list constraint is satisfied when the cell
equals any of its elements, a scalar constraint when the cell equals it, and
a None constraint always. -/
def rowMatches (df : DataFrame) (query : List (String × SearchVal)) (row : List String) : Bool :=
  query.all (fun kv =>
    match kv.2 with
    | .list vs => vs.any (fun v => df.cell row kv.1 == v)
    | .scalar s => df.cell row kv.1 == s
    | .null => true)

instance : IsTotal String natLe :=
  ⟨fun a b => le_total (naturalKey a) (naturalKey b)⟩

instance : IsTrans String natLe :=
  ⟨fun _ _ _ hab hbc => le_trans hab hbc⟩

/-- Fixture: a finder over the constant template with a parse capability
returning the path itself under the single field name. -/
def wF2 : Finder := ⟨[Segment.lit "data"], fun p => [("k", p)], ""⟩

/-- Fixture: a filesystem whose every glob call matches one directory entry. -/
def wGlob2 : String → List String := fun _ => ["d1"]

/-- Fixture: the frame assembled by wF2 over wGlob2 with no constraints. -/
def wDf2 : DataFrame := ⟨["filename", "k"], [["d1", "d1"]]⟩

/-- Fixture: a finder with one placeholder whose glob never matches. -/
def wF1 : Finder := ⟨[Segment.lit "d", Segment.key "x"], fun _ => [], ""⟩

/-- Fixture: a filesystem on which nothing matches. -/
def wGlob1 : String → List String := fun _ => []

/-- Fixture: a two-candidate query for the x placeholder. -/
def wKw1 : List (String × QueryValue) := [("x", QueryValue.list ["a", "b"])]

/-- Fixture: a two-row container for the search claims. -/
def wC4fc : FileContainer := ⟨⟨["filename", "k"], [["f1", "a"], ["f2", "b"]]⟩⟩

/-- Fixture: a one-container heap. -/
def wHeap : Heap := [⟨⟨["filename"], [["f"]]⟩⟩]

/-- Fixture: a finder whose template is a literal prefix plus one
placeholder, with the parse capability recovering the placeholder by
dropping the prefix. -/
def wF10 : Finder := ⟨[Segment.lit "a_", Segment.key "y"], fun p => [("y", String.drop p 2)], ""⟩

/-- Fixture: a filesystem with two matching files. -/
def wGlob10 : String → List String := fun _ => ["a_1", "a_2"]

/-- Fixture: the container wF10 assembles over wGlob10. -/
def wFc10 : FileContainer := ⟨⟨["filename", "y"], [["a_1", "1"], ["a_2", "2"]]⟩⟩

/-- Fixture: a directory template with one placeholder. -/
def wPP8 : Pattern := [Segment.lit "d", Segment.key "x"]

/-- Fixture: the parse capability for wPP8 on the one matched directory. -/
def wParse8 : String → List (String × String) := fun _ => [("x", "1")]

/-- Fixture: a parse capability that never recovers fields, for templates
without placeholders. -/
def cParse8 : String → List (String × String) := fun _ => []

lemma updateKeys_none (kw : List (String × QueryValue)) :
    updateKeysDictWithKwargs none kw = kw := rfl

lemma find_eq_findNorm (f : Finder) (glob : String → List String)
    (keysPos : Option (List (String × QueryValue))) (ae : Bool)
    (kw : List (String × QueryValue)) :
    f.find glob keysPos ae kw = f.findNorm glob ae (normalizeQuery kw) := rfl

lemma dedup_length_iff {α : Type} [DecidableEq α] (l : List α) :
    l.dedup.length = l.length ↔ l.Nodup := by
  constructor
  · intro h
    have he : l.dedup = l := (l.dedup_sublist).eq_of_length h
    rw [← he]
    exact l.nodup_dedup
  · intro h
    rw [List.dedup_eq_self.mpr h]

lemma rowPass_foldl (df : DataFrame) (row : List String) :
    ∀ (q : List (String × SearchVal)) (b : Bool),
      q.foldl
        (fun cond kv =>
          match kv.2 with
          | .list vs => cond && vs.foldl (fun c v => c || (df.cell row kv.1 == v)) false
          | .scalar s => cond && (df.cell row kv.1 == s)
          | .null => cond)
        b
      = (b && rowMatches df q row) := by
  intro q
  induction q with
  | nil => intro b; simp [rowMatches]
  | cons kv t ih =>
    intro b
    have hor : ∀ (vs : List String) (c : Bool),
        vs.foldl (fun c v => c || (df.cell row kv.1 == v)) c
          = (c || vs.any (fun v => df.cell row kv.1 == v)) := by
      intro vs
      induction vs with
      | nil => intro c; simp
      | cons v vt ihv => intro c; simp [List.any_cons, ihv, Bool.or_assoc]
    cases hv : kv.2 with
    | list vs =>
      simp only [List.foldl_cons, hv, rowMatches, List.all_cons, hor vs false,
        Bool.false_or, ih, Bool.and_assoc]
    | scalar s =>
      simp only [List.foldl_cons, hv, rowMatches, List.all_cons, ih, Bool.and_assoc]
    | null =>
      simp only [List.foldl_cons, hv, rowMatches, List.all_cons, ih, Bool.true_and]

lemma rowPass_eq_rowMatches (df : DataFrame) (q : List (String × SearchVal))
    (row : List String) : rowPass df q row = rowMatches df q row := by
  simpa using rowPass_foldl df row q true

/-- Claim C3: the positional keys dict passed to Finder.find is discarded
(find forwards keys=None internally), so only keyword-supplied field values
influence the search. -/
theorem find_discards_positional_keys (f : Finder) (glob : String → List String)
    (d : List (String × QueryValue)) (ae : Bool) (kw : List (String × QueryValue)) :
    f.find glob (some d) ae kw = f.find glob none ae kw := rfl

/-- Claim C5: FileContainer.search with zero keyword constraints returns a
table with zero rows and the same column schema, never the full table. -/
theorem search_without_constraints_is_empty (fc : FileContainer) :
    (fc.search []).df.rows = [] ∧ (fc.search []).df.columns = fc.df.columns :=
  ⟨rfl, rfl⟩

/-- Claim C6: for every filesystem state, Finder.find on a query is
unchanged when every one-element list value is replaced by its sole element
as a scalar (both normalize to the same list-valued keys dict). -/
theorem find_singleton_lists_as_scalars (f : Finder) (glob : String → List String)
    (keysPos : Option (List (String × QueryValue))) (ae : Bool)
    (kw : List (String × QueryValue)) :
    f.find glob keysPos ae (kw.map (fun kv => (kv.1, kv.2.scalarize))) =
      f.find glob keysPos ae kw := by
  rw [find_eq_findNorm, find_eq_findNorm]
  have hv : ∀ v : QueryValue, v.scalarize.toList = v.toList := by
    intro v
    cases v with
    | str s => rfl
    | list vs =>
      cases vs with
      | nil => rfl
      | cons a t => cases t with | nil => rfl | cons b t2 => rfl
  have hq : normalizeQuery (kw.map (fun kv => (kv.1, kv.2.scalarize))) = normalizeQuery kw := by
    simp only [normalizeQuery, List.map_map]
    exact List.map_congr_left (fun kv _ => by simp [Function.comp, hv kv.2])
  rw [hq]

/-- Claim C7: the paths glob returns for each concrete search pattern are
sorted by natural ordering before parsing: the loop body parses the
naturally sorted glob result, the natural sort is a permutation of the glob
result ordered by the natural-key comparison, and the spec example sorts as
stated.  The natural-key comparison splits a path into runs of digits and
non-digits, comparing digit runs numerically and non-digit runs lexically. -/
theorem find_sorts_paths_naturally :
    (∀ (f : Finder) (glob : String → List String) (combo : List (String × String)),
        f.searchOne glob combo =
          (f.fullPattern combo, f.parsePaths (sortNatural (glob (f.fullPattern combo))))) ∧
    (∀ l : List String, (sortNatural l).Perm l ∧ (sortNatural l).Sorted natLe) ∧
    sortNatural ["f2.txt", "f10.txt", "f1.txt"] = ["f1.txt", "f2.txt", "f10.txt"] :=
  ⟨fun _ _ _ => rfl,
   fun l => ⟨List.perm_insertionSort natLe l, List.sorted_insertionSort natLe l⟩,
   by decide⟩

/-- Claim C9: on the object heap, both filtering operations (search with a
query, and slice indexing) allocate a fresh container distinct from the
source, the source container is unchanged, and the fresh container holds the
filtered frame. -/
theorem filter_copies_do_not_alias (h : Heap) (i : Nat)
    (q : List (String × SearchVal)) (a b : Nat) (hi : i < h.length) :
    ((searchOnHeap h i q).2 ≠ i ∧
      heapGet (searchOnHeap h i q).1 i = heapGet h i ∧
      heapGet (searchOnHeap h i q).1 (searchOnHeap h i q).2 = (heapGet h i).search q) ∧
    ((sliceOnHeap h i a b).2 ≠ i ∧
      heapGet (sliceOnHeap h i a b).1 i = heapGet h i ∧
      heapGet (sliceOnHeap h i a b).1 (sliceOnHeap h i a b).2 =
        (heapGet h i).getItemSlice a b) := by
  have hne : h.length ≠ i := ne_of_gt hi
  have hkeep : ∀ x : FileContainer, heapGet (h ++ [x]) i = heapGet h i := by
    intro x
    simp only [heapGet, List.getElem?_append_left hi]
  have hnew : ∀ x : FileContainer, heapGet (h ++ [x]) h.length = x := by
    intro x
    simp only [heapGet, List.getElem?_concat_length, Option.getD_some]
  exact ⟨⟨hne, hkeep _, hnew _⟩, ⟨hne, hkeep _, hnew _⟩⟩

/-- Witness for claim C9 at a concrete one-container heap. -/
theorem filter_copies_do_not_alias_witness :
    (searchOnHeap wHeap 0 []).2 ≠ 0 ∧
      heapGet (searchOnHeap wHeap 0 []).1 0 = heapGet wHeap 0 :=
  ⟨(filter_copies_do_not_alias wHeap 0 [] 0 1 (by decide)).1.1,
   (filter_copies_do_not_alias wHeap 0 [] 0 1 (by decide)).1.2.1⟩

/-- Claim C2: when the search found at least one file (the concatenated
frame exists), Finder.find fails with AmbiguousResultError exactly when two
rows of the assembled table share the same joined key-column string, and
returns the assembled table when the joined key strings are pairwise
distinct. -/
theorem find_ambiguous_on_duplicate_keys (f : Finder) (glob : String → List String)
    (keysPos : Option (List (String × QueryValue))) (ae : Bool)
    (kw : List (String × QueryValue)) (df : DataFrame)
    (h : concatDfs ((f.attempts glob (normalizeQuery kw)).filterMap Prod.snd) = some df) :
    (¬ (FileContainer.combineByKey ⟨df⟩ none ".").Nodup →
        f.find glob keysPos ae kw = .error (.ambiguous ambiguousMsg)) ∧
    ((FileContainer.combineByKey ⟨df⟩ none ".").Nodup →
        f.find glob keysPos ae kw = .ok (.table ⟨df⟩)) := by
  rw [find_eq_findNorm]
  simp only [Finder.findNorm, h]
  constructor
  · intro hnd
    have hcond : (FileContainer.combineByKey ⟨df⟩ none ".").length ≠
        (FileContainer.combineByKey ⟨df⟩ none ".").dedup.length :=
      fun heq => hnd ((dedup_length_iff _).mp heq.symm)
    rw [if_pos hcond]
  · intro hd
    have hcond : ¬ ((FileContainer.combineByKey ⟨df⟩ none ".").length ≠
        (FileContainer.combineByKey ⟨df⟩ none ".").dedup.length) :=
      fun hne => hne ((dedup_length_iff _).mpr hd).symm
    rw [if_neg hcond]

/-- Witness for claim C2: a one-row search has distinct joined keys and
returns its table. -/
theorem find_ambiguous_on_duplicate_keys_witness :
    wF2.find wGlob2 none false [] = Except.ok (FindResult.table ⟨wDf2⟩) :=
  (find_ambiguous_on_duplicate_keys wF2 wGlob2 none false [] wDf2 rfl).2 (by decide)

/-- Claim C4: searching a container with a non-empty query keeps exactly the
rows satisfying every supplied constraint, where a list-valued constraint
matches when the column equals any of its elements, constraints on distinct
fields combine conjunctively, a None-valued constraint matches every row,
and the column schema is preserved. -/
theorem search_selects_matching_rows (fc : FileContainer)
    (query : List (String × SearchVal)) (h : query ≠ []) :
    (fc.search query).df.rows = fc.df.rows.filter (rowMatches fc.df query) ∧
    (fc.search query).df.columns = fc.df.columns := by
  have hne : query.isEmpty = false := by
    cases query with
    | nil => exact absurd rfl h
    | cons a t => rfl
  have hfun : rowPass fc.df query = rowMatches fc.df query :=
    funext (fun row => rowPass_eq_rowMatches fc.df query row)
  constructor
  · show (fc.getSubset query).rows = _
    simp only [FileContainer.getSubset, hne, Bool.false_eq_true, if_false, hfun]
  · show (fc.getSubset query).columns = _
    simp only [FileContainer.getSubset, hne, Bool.false_eq_true, if_false]

/-- Witness for claim C4 at a concrete two-row container and a scalar
constraint. -/
theorem search_selects_matching_rows_witness :
    (wC4fc.search [("k", SearchVal.scalar "a")]).df.rows =
      wC4fc.df.rows.filter (rowMatches wC4fc.df [("k", SearchVal.scalar "a")]) :=
  (search_selects_matching_rows wC4fc [("k", SearchVal.scalar "a")] (by decide)).1

lemma strData_append (a b : String) : (a ++ b).data = a.data ++ b.data := rfl

lemma mem_patternLines (p : String) :
    ∀ ps : List String, p ∈ ps → p.data <:+: (patternLines ps).data := by
  intro ps
  induction ps with
  | nil => intro hp; cases hp
  | cons q t ih =>
    intro hp
    rcases List.mem_cons.mp hp with heq | hmem
    · subst heq
      refine ⟨("\n- \x27").data, ("\x27" ++ patternLines t).data, ?_⟩
      simp [patternLines, strData_append, List.append_assoc]
    · refine (ih hmem).trans ⟨("\n- \x27" ++ q ++ "\x27").data, [], ?_⟩
      simp [patternLines, strData_append, List.append_assoc]

lemma mem_noMatchMsg (p : String) (ps : List String) (hp : p ∈ ps) :
    p.data <:+: (noMatchMsg ps).data :=
  (mem_patternLines p ps hp).trans
    ⟨("Found no files matching criteria. Tried the following pattern(s):").data, [],
      by simp [noMatchMsg, strData_append]⟩

lemma attempts_map_fst (f : Finder) (glob : String → List String)
    (kw : List (String × QueryValue)) :
    (f.attempts glob (normalizeQuery kw)).map Prod.fst = f.attemptedPatterns kw := by
  simp [Finder.attempts, Finder.attemptedPatterns, Finder.searchOne]

lemma attempts_all_none (f : Finder) (glob : String → List String)
    (nq : List (String × List String))
    (h : ∀ combo ∈ productDict nq, glob (f.fullPattern combo) = []) :
    (f.attempts glob nq).filterMap Prod.snd = [] := by
  rw [List.filterMap_eq_nil_iff]
  intro pr hpr
  rw [Finder.attempts, List.mem_map] at hpr
  obtain ⟨combo, hc, rfl⟩ := hpr
  show (f.searchOne glob combo).2 = none
  simp only [Finder.searchOne, h combo hc]
  rfl

/-- Claim C1 (amended): when every attempted concrete search pattern matches
zero paths, Finder.find returns the literal empty list (not a result table)
when the allow-empty flag is set, and otherwise fails with the no-match
error whose message enumerates every attempted pattern (each attempted
pattern occurs inside the message, and the message is built from the full
pattern list). -/
theorem find_zero_matches_policy (f : Finder) (glob : String → List String)
    (keysPos : Option (List (String × QueryValue))) (ae : Bool)
    (kw : List (String × QueryValue))
    (h : ∀ combo ∈ productDict (normalizeQuery kw), glob (f.fullPattern combo) = []) :
    (ae = true → f.find glob keysPos ae kw = .ok .emptyList) ∧
    (ae = false →
      f.find glob keysPos ae kw =
          .error (.noMatch (noMatchMsg (f.attemptedPatterns kw))) ∧
        ∀ pt ∈ f.attemptedPatterns kw,
          pt.data <:+: (noMatchMsg (f.attemptedPatterns kw)).data) := by
  rw [find_eq_findNorm]
  simp only [Finder.findNorm, attempts_all_none f glob _ h, attempts_map_fst, concatDfs]
  constructor
  · intro hae; subst hae; rfl
  · intro hae; subst hae
    exact ⟨rfl, fun pt hpt => mem_noMatchMsg pt _ hpt⟩

/-- Counterexample to claim C1 as stated: with zero matches and the
allow-empty flag set, Finder.find succeeds but the returned value is the
empty list constructor, not a result table. -/
theorem find_allow_empty_returns_list_not_table :
    (wF1.find wGlob1 none true []).map FindResult.isTable = Except.ok false := rfl

/-- Witness for claim C1 at a concrete finder, an always-empty filesystem
and a two-candidate query. -/
theorem find_zero_matches_policy_witness :
    wF1.find wGlob1 none false wKw1 =
      Except.error (FindError.noMatch (noMatchMsg (wF1.attemptedPatterns wKw1))) :=
  ((find_zero_matches_policy wF1 wGlob1 none false wKw1 (fun _ _ => rfl)).2 rfl).1

lemma parsePaths_some (f : Finder) (paths : List String) (d : DataFrame)
    (h : f.parsePaths paths = some d) :
    d.rows = paths.map (fun q => (q ++ f.suffix) :: ((f.parseFn q).map Prod.snd)) ∧
    ∃ plast ∈ paths, d.columns = "filename" :: ((f.parseFn plast).map Prod.fst) := by
  cases paths with
  | nil => exact absurd h (by simp [Finder.parsePaths])
  | cons p ps =>
    rw [Finder.parsePaths] at h
    obtain rfl := (Option.some.inj h).symm
    exact ⟨rfl, (p :: ps).getLast (List.cons_ne_nil p ps), List.getLast_mem _, rfl⟩

lemma findNorm_ok_table (f : Finder) (glob : String → List String) (ae : Bool)
    (nq : List (String × List String)) (fc : FileContainer)
    (h : f.findNorm glob ae nq = .ok (.table fc)) :
    concatDfs ((f.attempts glob nq).filterMap Prod.snd) = some fc.df := by
  unfold Finder.findNorm at h
  cases hcd : concatDfs ((f.attempts glob nq).filterMap Prod.snd) with
  | none =>
    simp only [hcd] at h
    cases ae <;> simp at h
  | some df =>
    simp only [hcd] at h
    split at h
    · exact absurd h (by simp)
    · simp only [Except.ok.injEq, FindResult.table.injEq] at h
      rw [← h]

lemma findNorm_table_rows (f : Finder) (glob : String → List String) (ae : Bool)
    (nq : List (String × List String)) (fc : FileContainer)
    (h : f.findNorm glob ae nq = .ok (.table fc)) :
    (∀ row ∈ fc.df.rows, ∃ combo ∈ productDict nq, ∃ q ∈ glob (f.fullPattern combo),
        row = (q ++ f.suffix) :: ((f.parseFn q).map Prod.snd)) ∧
    (∃ combo ∈ productDict nq, ∃ q ∈ glob (f.fullPattern combo),
        fc.df.columns = "filename" :: ((f.parseFn q).map Prod.fst)) := by
  have hcd := findNorm_ok_table f glob ae nq fc h
  cases hL : (f.attempts glob nq).filterMap Prod.snd with
  | nil => rw [hL] at hcd; exact absurd hcd (by simp [concatDfs])
  | cons d ds =>
    rw [hL] at hcd
    simp only [concatDfs, Option.some.injEq] at hcd
    constructor
    · intro row hrow
      have hrows : fc.df.rows = ((d :: ds).map DataFrame.rows).flatten := by rw [← hcd]
      rw [hrows, List.mem_flatten] at hrow
      obtain ⟨rl, hrl, hrowin⟩ := hrow
      rw [List.mem_map] at hrl
      obtain ⟨d2, hd2, rfl⟩ := hrl
      have hd3 : d2 ∈ (f.attempts glob nq).filterMap Prod.snd := by rw [hL]; exact hd2
      rw [List.mem_filterMap] at hd3
      obtain ⟨pr, hpr, hsnd⟩ := hd3
      rw [Finder.attempts, List.mem_map] at hpr
      obtain ⟨combo, hc, rfl⟩ := hpr
      obtain ⟨hrows2, _⟩ := parsePaths_some f _ d2 hsnd
      rw [hrows2, List.mem_map] at hrowin
      obtain ⟨q, hq, rfl⟩ := hrowin
      exact ⟨combo, hc, q, (List.mem_insertionSort natLe).mp hq, rfl⟩
    · have hd0 : d ∈ (f.attempts glob nq).filterMap Prod.snd := by
        rw [hL]; exact List.mem_cons_self d ds
      rw [List.mem_filterMap] at hd0
      obtain ⟨pr, hpr, hsnd⟩ := hd0
      rw [Finder.attempts, List.mem_map] at hpr
      obtain ⟨combo, hc, rfl⟩ := hpr
      obtain ⟨_, plast, hpl, hcols⟩ := parsePaths_some f _ d hsnd
      refine ⟨combo, hc, plast, (List.mem_insertionSort natLe).mp hpl, ?_⟩
      rw [← hcd]
      exact hcols

/-- Claim C10: when the external parse capability recovers exactly the
template keys on every globbed path, every row of a successful search has
exactly one more attribute than the key set: the filename (the matched path
plus the finder suffix) followed by the parsed value of each placeholder,
under the column header of the filename plus the template keys. -/
theorem find_rows_have_key_columns (f : Finder) (glob : String → List String)
    (keysPos : Option (List (String × QueryValue))) (ae : Bool)
    (kw : List (String × QueryValue)) (fc : FileContainer)
    (hp : ∀ s : String, ∀ q ∈ glob s, ((f.parseFn q).map Prod.fst) = f.pattern.keys)
    (h : f.find glob keysPos ae kw = .ok (.table fc)) :
    fc.df.columns = "filename" :: f.pattern.keys ∧
    ∀ row ∈ fc.df.rows, row.length = f.pattern.keys.length + 1 ∧
      ∃ q, row = (q ++ f.suffix) :: ((f.parseFn q).map Prod.snd) := by
  rw [find_eq_findNorm] at h
  obtain ⟨hrows, combo0, hc0, q0, hq0, hcols⟩ := findNorm_table_rows f glob ae _ fc h
  constructor
  · rw [hcols, hp _ _ hq0]
  · intro row hr
    obtain ⟨combo, hc, q, hqg, hrow⟩ := hrows row hr
    constructor
    · rw [hrow]
      have hlen : ((f.parseFn q).map Prod.snd).length = f.pattern.keys.length := by
        rw [← hp _ _ hqg]
        simp
      simp [hlen]
    · exact ⟨q, hrow⟩

/-- Witness for claim C10 at a concrete finder with one placeholder and a
two-file filesystem. -/
theorem find_rows_have_key_columns_witness :
    wFc10.df.columns = "filename" :: wF10.pattern.keys ∧
      (["a_1", "1"] : List String).length = wF10.pattern.keys.length + 1 :=
  ⟨(find_rows_have_key_columns wF10 wGlob10 none false [] wFc10 (fun _ _ _ => rfl) rfl).1,
   ((find_rows_have_key_columns wF10 wGlob10 none false [] wFc10 (fun _ _ _ => rfl) rfl).2
      ["a_1", "1"] (by decide)).1⟩

/-- Claim C8 (amended): for every directory-only search, the finder template
is forced to end with the path separator whenever the directory template is
nonempty (joining the empty template with the empty string leaves it empty);
the concrete search patterns it generates carry no appended wildcard suffix
(they are the same whatever the finder suffix is); instead the wildcard
suffix is appended to each matched path stored in the filename column of the
result table. -/
theorem findPaths_sep_and_filename_suffix (p : Pattern)
    (parseFn : String → List (String × String)) (glob : String → List String)
    (keysPos : Option (List (String × QueryValue))) (ae : Bool)
    (kw : List (String × QueryValue)) (fc : FileContainer) :
    (p ≠ [] → patternEndsWithSep (FileFinder.pathFinder p parseFn).pattern = true) ∧
    (∀ suf : String,
        Finder.attemptedPatterns ⟨osJoinTrailing p, parseFn, suf⟩ kw =
          (FileFinder.pathFinder p parseFn).attemptedPatterns kw) ∧
    (FileFinder.findPaths p parseFn glob keysPos ae kw = .ok (.table fc) →
      ∀ row ∈ fc.df.rows, ∃ path, row.head? = some (path ++ "*")) := by
  refine ⟨?_, fun _ => rfl, ?_⟩
  · intro hne
    show patternEndsWithSep (osJoinTrailing p) = true
    have hpe : p.isEmpty = false := by
      cases p with
      | nil => exact absurd rfl hne
      | cons a t => rfl
    rw [osJoinTrailing]
    simp only [hpe, Bool.false_eq_true, if_false]
    by_cases hsep : patternEndsWithSep p = true
    · rw [if_pos hsep]; exact hsep
    · rw [if_neg hsep]
      simp [patternEndsWithSep, List.getLast?_concat, strEndsWithSep]
  · intro h row hr
    rw [FileFinder.findPaths, find_eq_findNorm] at h
    obtain ⟨hrows, _⟩ := findNorm_table_rows _ glob ae _ fc h
    obtain ⟨combo, hc, q, hq, hrow⟩ := hrows row hr
    exact ⟨q, by rw [hrow]; rfl⟩

/-- Counterexample to claim C8 as stated, in both clauses: for the
placeholder-free directory template the single attempted concrete search
pattern is the template plus the separator, containing no wildcard at all,
so it does not carry a trailing wildcard suffix; and for the empty directory
template (os.path.join of two empty strings is empty) the path finder
template does not end with the path separator. -/
theorem findPaths_pattern_lacks_wildcard_suffix :
    (FileFinder.pathFinder [Segment.lit "data"] cParse8).attemptedPatterns [] = ["data/"] ∧
    ("data/".data.contains '*') = false ∧
    patternEndsWithSep (FileFinder.pathFinder [] cParse8).pattern = false :=
  ⟨rfl, rfl, rfl⟩

/-- Witness for claim C8 at a concrete one-placeholder directory template. -/
theorem findPaths_sep_and_filename_suffix_witness :
    patternEndsWithSep (FileFinder.pathFinder wPP8 wParse8).pattern = true :=
  (findPaths_sep_and_filename_suffix wPP8 wParse8 (fun _ => ["d1/"]) none false []
    ⟨⟨["filename", "x"], [["d1/*", "1"]]⟩⟩).1 (by decide)

end Filefinder
